import Mathlib

/-!
Verification of the CSS-selector builder and the object helpers of
`src/05-objects-tasks.js`.

The JavaScript source is shallowly embedded: the mutable `SelectoCss` class
becomes a structure passed and returned explicitly, a method that can `throw`
returns the post-call state together with an optional error message
(`SelectoCss × Option String`; on a throw the state component is the input
state, mirroring the source where every `throw` precedes every field write),
and JavaScript truthiness of the checked fields is made explicit: a string is
truthy iff nonempty, and `arr[0]` is truthy iff the array has a first element
that is a nonempty string (`undefined` and the empty string are both falsy).
-/

/-- Truthiness of a JavaScript string: truthy iff nonempty. -/
def truthyStr (s : String) : Bool := decide (s ≠ "")

/-- Truthiness of `arr[0]` for an array of strings: the element at index 0
exists and is a nonempty string (`undefined` and the empty string are both falsy). -/
def truthyHead (l : List String) : Bool := truthyStr (l.headD "")

/-- Message of the duplicate-singleton error, verbatim from the source. -/
def dupMsg : String :=
  "Element, id and pseudo-element should not occur more then one time inside the selector"

/-- Message of the out-of-order error, verbatim from the source. -/
def orderMsg : String :=
  "Selector parts should be arranged in the following order: element, id, class, attribute, pseudo-class, pseudo-element"

/-- State of a `SelectoCss` instance: the six fragment fields plus the unused
`mean` field set by the constructor. -/
structure SelectoCss where
  elementTag : String
  elementId : String
  elementClasses : List String
  elementAttr : List String
  elementPseudoClasses : List String
  elementPseudoElement : String
  mean : String
deriving DecidableEq, Repr

/-- `new SelectoCss(value)`: every fragment field empty, `mean` stores the
constructor argument (the default argument of the source is the empty string). -/
def SelectoCss.new (value : String) : SelectoCss :=
  { elementTag := "", elementId := "", elementClasses := [], elementAttr := [],
    elementPseudoClasses := [], elementPseudoElement := "", mean := value }

/-- `new SelectoCss()` — the only form the facade ever uses. -/
def initSel : SelectoCss := SelectoCss.new ""

/-- `element(value)`: throws the duplicate message if `this.elementTag` is
truthy, then the order message if any later-kind field is truthy, otherwise
assigns `this.elementTag = value`. -/
def SelectoCss.element (s : SelectoCss) (value : String) : SelectoCss × Option String :=
  if truthyStr s.elementTag then (s, some dupMsg)
  else if truthyStr s.elementId || truthyHead s.elementClasses
      || truthyHead s.elementAttr || truthyHead s.elementPseudoClasses
      || truthyStr s.elementPseudoElement then (s, some orderMsg)
  else ({ s with elementTag := value }, none)

/-- `id(value)`: duplicate check on `this.elementId`, order check on the
class/attr/pseudo-class/pseudo-element fields, then assignment. -/
def SelectoCss.id (s : SelectoCss) (value : String) : SelectoCss × Option String :=
  if truthyStr s.elementId then (s, some dupMsg)
  else if truthyHead s.elementClasses || truthyHead s.elementAttr
      || truthyHead s.elementPseudoClasses || truthyStr s.elementPseudoElement then
    (s, some orderMsg)
  else ({ s with elementId := value }, none)

/-- `class(value)` (named `cls` here because `class` is a Lean keyword):
order check on attr/pseudo-class/pseudo-element, then
`this.elementClasses.push(value)`. -/
def SelectoCss.cls (s : SelectoCss) (value : String) : SelectoCss × Option String :=
  if truthyHead s.elementAttr || truthyHead s.elementPseudoClasses
      || truthyStr s.elementPseudoElement then (s, some orderMsg)
  else ({ s with elementClasses := s.elementClasses ++ [value] }, none)

/-- `attr(value)`: order check on pseudo-class/pseudo-element, then
`this.elementAttr.push(value)`. -/
def SelectoCss.attr (s : SelectoCss) (value : String) : SelectoCss × Option String :=
  if truthyHead s.elementPseudoClasses || truthyStr s.elementPseudoElement then
    (s, some orderMsg)
  else ({ s with elementAttr := s.elementAttr ++ [value] }, none)

/-- `pseudoClass(value)`: order check on pseudo-element, then
`this.elementPseudoClasses.push(value)`. -/
def SelectoCss.pseudoClass (s : SelectoCss) (value : String) : SelectoCss × Option String :=
  if truthyStr s.elementPseudoElement then (s, some orderMsg)
  else ({ s with elementPseudoClasses := s.elementPseudoClasses ++ [value] }, none)

/-- `pseudoElement(value)`: duplicate check on `this.elementPseudoElement`
(the source throws the duplicate message here), then assignment. -/
def SelectoCss.pseudoElement (s : SelectoCss) (value : String) : SelectoCss × Option String :=
  if truthyStr s.elementPseudoElement then (s, some dupMsg)
  else ({ s with elementPseudoElement := value }, none)

/-- The `forEach` accumulation inside `stringify()`: each element of the list
rendered as `pre ++ x ++ post`, concatenated in list order. -/
def renderList (pre post : String) : List String → String
  | [] => ""
  | x :: xs => (pre ++ x ++ post) ++ renderList pre post xs

/-- `stringify()`: concatenates the six segments in the fixed field order,
each guarded by truthiness of the field (for the three list fields, by
truthiness of the element at index 0). -/
def SelectoCss.stringify (s : SelectoCss) : String :=
  (if truthyStr s.elementTag then s.elementTag else "")
  ++ (if truthyStr s.elementId then "#" ++ s.elementId else "")
  ++ (if truthyHead s.elementClasses then renderList "." "" s.elementClasses else "")
  ++ (if truthyHead s.elementAttr then renderList "[" "]" s.elementAttr else "")
  ++ (if truthyHead s.elementPseudoClasses then renderList ":" "" s.elementPseudoClasses else "")
  ++ (if truthyStr s.elementPseudoElement then "::" ++ s.elementPseudoElement else "")

/-- The six fragment kinds, in the order of the source's methods. -/
inductive Kind where
  | element
  | id
  | cls
  | attr
  | pseudoClass
  | pseudoElement
deriving DecidableEq, Repr

/-- Rank of a kind in the fixed selector order. -/
def Kind.rank : Kind → Nat
  | .element => 0
  | .id => 1
  | .cls => 2
  | .attr => 3
  | .pseudoClass => 4
  | .pseudoElement => 5

/-- Singleton kinds: at most one occurrence per selector. -/
def Kind.isSingleton : Kind → Bool
  | .element => true
  | .id => true
  | .pseudoElement => true
  | _ => false

/-- Repeatable kinds: any number of occurrences. -/
def Kind.isRepeatable : Kind → Bool
  | .cls => true
  | .attr => true
  | .pseudoClass => true
  | _ => false

/-- Dispatch a builder-method call by kind. -/
def SelectoCss.apply (s : SelectoCss) : Kind → String → SelectoCss × Option String
  | .element, v => s.element v
  | .id, v => s.id v
  | .cls, v => s.cls v
  | .attr, v => s.attr v
  | .pseudoClass, v => s.pseudoClass v
  | .pseudoElement, v => s.pseudoElement v

/-- One chained builder call: the kind of the method and its argument. -/
abbrev BuilderOp := Kind × String

/-- Run a chain of builder calls, stopping at the first thrown error (a
JavaScript `throw` aborts the chain; the builder keeps the pre-throw state). -/
def applyOps (s : SelectoCss) : List BuilderOp → SelectoCss × Option String
  | [] => (s, none)
  | op :: ops =>
    match s.apply op.1 op.2 with
    | (s1, none) => applyOps s1 ops
    | (s1, some e) => (s1, some e)

/-- The rendered text of one fragment, with its exact prefix characters. -/
def fragStr : BuilderOp → String
  | (.element, v) => v
  | (.id, v) => "#" ++ v
  | (.cls, v) => "." ++ v
  | (.attr, v) => "[" ++ v ++ "]"
  | (.pseudoClass, v) => ":" ++ v
  | (.pseudoElement, v) => "::" ++ v

/-- Concatenation of the rendered fragments of a call chain, in chain order. -/
def fragsRender : List BuilderOp → String
  | [] => ""
  | op :: ops => fragStr op ++ fragsRender ops

/-- The fresh builder after one single successful fragment application. -/
def singleFrag (k : Kind) (v : String) : SelectoCss :=
  match k with
  | .element => { initSel with elementTag := v }
  | .id => { initSel with elementId := v }
  | .cls => { initSel with elementClasses := [v] }
  | .attr => { initSel with elementAttr := [v] }
  | .pseudoClass => { initSel with elementPseudoClasses := [v] }
  | .pseudoElement => { initSel with elementPseudoElement := v }

/-- The stored field of a singleton kind. -/
def SelectoCss.singletonField (s : SelectoCss) : Kind → String
  | .element => s.elementTag
  | .id => s.elementId
  | .pseudoElement => s.elementPseudoElement
  | _ => ""

/-- The stored sequence of a repeatable kind. -/
def SelectoCss.listField (s : SelectoCss) : Kind → List String
  | .cls => s.elementClasses
  | .attr => s.elementAttr
  | .pseudoClass => s.elementPseudoClasses
  | _ => []

/-- A builder whose only populated field is the sequence of one repeatable
kind. -/
def onlyList (k : Kind) (l : List String) : SelectoCss :=
  match k with
  | .cls => { initSel with elementClasses := l }
  | .attr => { initSel with elementAttr := l }
  | .pseudoClass => { initSel with elementPseudoClasses := l }
  | _ => initSel

/-- The object literal returned by `cssSelectorBuilder.combine`: the two
operands are stringified at construction time and only the resulting strings
are stored (the field names are the source's, misspelling included). -/
structure Combined where
  firstSel : String
  secondtSel : String
  comb : String
deriving DecidableEq, Repr

/-- `stringify()` of a combined selector. -/
def Combined.stringify (c : Combined) : String :=
  c.firstSel ++ " " ++ c.comb ++ " " ++ c.secondtSel

/-- Anything `combine` accepts as an operand: any value exposing
`stringify()`, i.e. a plain builder or a previously combined selector. -/
inductive Selector where
  | simple (s : SelectoCss)
  | combined (c : Combined)

/-- Dynamic dispatch of `stringify()` on an operand. -/
def Selector.stringify : Selector → String
  | .simple s => s.stringify
  | .combined c => c.stringify

/-- `cssSelectorBuilder.combine(selector1, combine, selector2)`: calls
`stringify()` on both operands at construction time and stores the strings;
the combinator token is stored unchecked. -/
def cssSelectorBuilder.combine (selector1 : Selector) (c : String) (selector2 : Selector) :
    Combined :=
  { firstSel := selector1.stringify, secondtSel := selector2.stringify, comb := c }

/-- `cssSelectorBuilder.element(value)` — fresh instance, one call. -/
def cssSelectorBuilder.element (value : String) : SelectoCss × Option String :=
  initSel.element value

/-- `cssSelectorBuilder.id(value)`. -/
def cssSelectorBuilder.id (value : String) : SelectoCss × Option String :=
  initSel.id value

/-- `cssSelectorBuilder.class(value)`. -/
def cssSelectorBuilder.cls (value : String) : SelectoCss × Option String :=
  initSel.cls value

/-- `cssSelectorBuilder.attr(value)`. -/
def cssSelectorBuilder.attr (value : String) : SelectoCss × Option String :=
  initSel.attr value

/-- `cssSelectorBuilder.pseudoClass(value)`. -/
def cssSelectorBuilder.pseudoClass (value : String) : SelectoCss × Option String :=
  initSel.pseudoClass value

/-- `cssSelectorBuilder.pseudoElement(value)`. -/
def cssSelectorBuilder.pseudoElement (value : String) : SelectoCss × Option String :=
  initSel.pseudoElement value

/-- Invariant maintained by nonempty-valued call chains: every string stored
in the three sequence fields is nonempty, so truthiness of the element at
index 0 coincides with nonemptiness of the sequence. -/
def SelInv (s : SelectoCss) : Prop :=
  (∀ c ∈ s.elementClasses, c ≠ "") ∧ (∀ a ∈ s.elementAttr, a ≠ "")
  ∧ (∀ p ∈ s.elementPseudoClasses, p ≠ "")

theorem truthyStr_false (s : String) : truthyStr s = false ↔ s = "" := by
  simp [truthyStr]

theorem truthyStr_true (s : String) : truthyStr s = true ↔ s ≠ "" := by
  simp [truthyStr]

theorem truthyHead_false_of_all_ne (l : List String) (h : ∀ x ∈ l, x ≠ "") :
    truthyHead l = false ↔ l = [] := by
  cases l with
  | nil => simp [truthyHead, truthyStr]
  | cons a as =>
    have ha : a ≠ "" := h a (List.mem_cons_self a as)
    simp [truthyHead, truthyStr, ha]

theorem renderList_append (pre post : String) (l : List String) (v : String) :
    renderList pre post (l ++ [v]) = renderList pre post l ++ (pre ++ v ++ post) := by
  induction l with
  | nil => simp [renderList, String.append_empty, String.empty_append]
  | cons a as ih => simp [renderList, ih, String.append_assoc]

theorem truthyStr_empty : truthyStr "" = false := rfl

theorem truthyHead_nil : truthyHead [] = false := rfl

theorem truthyHead_cons (a : String) (l : List String) : truthyHead (a :: l) = truthyStr a := rfl

theorem all_ne_append (l : List String) (v : String) (hl : ∀ x ∈ l, x ≠ "") (hv : v ≠ "") :
    ∀ x ∈ l ++ [v], x ≠ "" := by
  intro x hx
  rcases List.mem_append.mp hx with hx | hx
  · exact hl x hx
  · rw [List.mem_singleton.mp hx]; exact hv

theorem apply_ok_stringify (s s' : SelectoCss) (k : Kind) (v : String)
    (hInv : SelInv s) (hv : v ≠ "") (h : s.apply k v = (s', none)) :
    s'.stringify = s.stringify ++ fragStr (k, v) ∧ SelInv s' := by
  obtain ⟨hc, ha, hp⟩ := hInv
  have tv : truthyStr v = true := (truthyStr_true v).mpr hv
  cases k
  case element =>
    simp only [SelectoCss.apply, SelectoCss.element] at h
    split at h
    · simp at h
    next h1 =>
      split at h
      · simp at h
      next h2 =>
        simp only [Prod.mk.injEq] at h
        obtain ⟨h, -⟩ := h
        subst h
        simp only [Bool.or_eq_true, not_or, Bool.not_eq_true] at h1 h2
        obtain ⟨⟨⟨⟨hid, hcls⟩, hattr⟩, hpcs⟩, hpe⟩ := h2
        have e1 : s.elementTag = "" := (truthyStr_false _).mp h1
        have e2 : s.elementId = "" := (truthyStr_false _).mp hid
        have e3 : s.elementClasses = [] := (truthyHead_false_of_all_ne _ hc).mp hcls
        have e4 : s.elementAttr = [] := (truthyHead_false_of_all_ne _ ha).mp hattr
        have e5 : s.elementPseudoClasses = [] := (truthyHead_false_of_all_ne _ hp).mp hpcs
        have e6 : s.elementPseudoElement = "" := (truthyStr_false _).mp hpe
        constructor
        · simp [SelectoCss.stringify, fragStr, e1, e2, e3, e4, e5, e6, tv,
            truthyStr_empty, truthyHead_nil, truthyHead_cons, renderList,
            String.append_empty, String.empty_append]
        · exact ⟨hc, ha, hp⟩
  case id =>
    simp only [SelectoCss.apply, SelectoCss.id] at h
    split at h
    · simp at h
    next h1 =>
      split at h
      · simp at h
      next h2 =>
        simp only [Prod.mk.injEq] at h
        obtain ⟨h, -⟩ := h
        subst h
        simp only [Bool.or_eq_true, not_or, Bool.not_eq_true] at h1 h2
        obtain ⟨⟨⟨hcls, hattr⟩, hpcs⟩, hpe⟩ := h2
        have e2 : s.elementId = "" := (truthyStr_false _).mp h1
        have e3 : s.elementClasses = [] := (truthyHead_false_of_all_ne _ hc).mp hcls
        have e4 : s.elementAttr = [] := (truthyHead_false_of_all_ne _ ha).mp hattr
        have e5 : s.elementPseudoClasses = [] := (truthyHead_false_of_all_ne _ hp).mp hpcs
        have e6 : s.elementPseudoElement = "" := (truthyStr_false _).mp hpe
        constructor
        · simp [SelectoCss.stringify, fragStr, e2, e3, e4, e5, e6, tv,
            truthyStr_empty, truthyHead_nil, truthyHead_cons, renderList,
            String.append_empty, String.empty_append, String.append_assoc]
        · exact ⟨hc, ha, hp⟩
  case cls =>
    simp only [SelectoCss.apply, SelectoCss.cls] at h
    split at h
    · simp at h
    next h1 =>
      simp only [Prod.mk.injEq] at h
      obtain ⟨h, -⟩ := h
      subst h
      simp only [Bool.or_eq_true, not_or, Bool.not_eq_true] at h1
      obtain ⟨⟨hattr, hpcs⟩, hpe⟩ := h1
      have e4 : s.elementAttr = [] := (truthyHead_false_of_all_ne _ ha).mp hattr
      have e5 : s.elementPseudoClasses = [] := (truthyHead_false_of_all_ne _ hp).mp hpcs
      have e6 : s.elementPseudoElement = "" := (truthyStr_false _).mp hpe
      refine ⟨?_, all_ne_append _ _ hc hv, ha, hp⟩
      cases hcl : s.elementClasses with
      | nil =>
        simp [SelectoCss.stringify, fragStr, e4, e5, e6, tv, hcl,
          truthyStr_empty, truthyHead_nil, truthyHead_cons, renderList,
          String.append_empty, String.empty_append, String.append_assoc]
      | cons a as =>
        have ta : truthyStr a = true :=
          (truthyStr_true a).mpr (hc a (hcl ▸ List.mem_cons_self a as))
        simp [SelectoCss.stringify, fragStr, e4, e5, e6, tv, ta, hcl,
          truthyStr_empty, truthyHead_nil, truthyHead_cons, renderList, renderList_append,
          String.append_empty, String.empty_append, String.append_assoc]
  case attr =>
    simp only [SelectoCss.apply, SelectoCss.attr] at h
    split at h
    · simp at h
    next h1 =>
      simp only [Prod.mk.injEq] at h
      obtain ⟨h, -⟩ := h
      subst h
      simp only [Bool.or_eq_true, not_or, Bool.not_eq_true] at h1
      obtain ⟨hpcs, hpe⟩ := h1
      have e5 : s.elementPseudoClasses = [] := (truthyHead_false_of_all_ne _ hp).mp hpcs
      have e6 : s.elementPseudoElement = "" := (truthyStr_false _).mp hpe
      refine ⟨?_, hc, all_ne_append _ _ ha hv, hp⟩
      cases hat : s.elementAttr with
      | nil =>
        simp [SelectoCss.stringify, fragStr, e5, e6, tv, hat,
          truthyStr_empty, truthyHead_nil, truthyHead_cons, renderList,
          String.append_empty, String.empty_append, String.append_assoc]
      | cons a as =>
        have ta : truthyStr a = true :=
          (truthyStr_true a).mpr (ha a (hat ▸ List.mem_cons_self a as))
        simp [SelectoCss.stringify, fragStr, e5, e6, tv, ta, hat,
          truthyStr_empty, truthyHead_nil, truthyHead_cons, renderList, renderList_append,
          String.append_empty, String.empty_append, String.append_assoc]
  case pseudoClass =>
    simp only [SelectoCss.apply, SelectoCss.pseudoClass] at h
    split at h
    · simp at h
    next h1 =>
      simp only [Prod.mk.injEq] at h
      obtain ⟨h, -⟩ := h
      subst h
      simp only [Bool.not_eq_true] at h1
      have e6 : s.elementPseudoElement = "" := (truthyStr_false _).mp h1
      refine ⟨?_, hc, ha, all_ne_append _ _ hp hv⟩
      cases hps : s.elementPseudoClasses with
      | nil =>
        simp [SelectoCss.stringify, fragStr, e6, tv, hps,
          truthyStr_empty, truthyHead_nil, truthyHead_cons, renderList,
          String.append_empty, String.empty_append, String.append_assoc]
      | cons a as =>
        have ta : truthyStr a = true :=
          (truthyStr_true a).mpr (hp a (hps ▸ List.mem_cons_self a as))
        simp [SelectoCss.stringify, fragStr, e6, tv, ta, hps,
          truthyStr_empty, truthyHead_nil, truthyHead_cons, renderList, renderList_append,
          String.append_empty, String.empty_append, String.append_assoc]
  case pseudoElement =>
    simp only [SelectoCss.apply, SelectoCss.pseudoElement] at h
    split at h
    · simp at h
    next h1 =>
      simp only [Prod.mk.injEq] at h
      obtain ⟨h, -⟩ := h
      subst h
      simp only [Bool.not_eq_true] at h1
      have e6 : s.elementPseudoElement = "" := (truthyStr_false _).mp h1
      refine ⟨?_, hc, ha, hp⟩
      simp [SelectoCss.stringify, fragStr, e6, tv,
        truthyStr_empty, truthyHead_nil, truthyHead_cons, renderList,
        String.append_empty, String.empty_append, String.append_assoc]

theorem applyOps_ok_stringify (ops : List BuilderOp) :
    ∀ s s' : SelectoCss, SelInv s → (∀ op ∈ ops, op.2 ≠ "") →
    applyOps s ops = (s', none) →
    s'.stringify = s.stringify ++ fragsRender ops := by
  induction ops with
  | nil =>
    intro s s' _ _ h
    simp only [applyOps, Prod.mk.injEq] at h
    obtain ⟨h, -⟩ := h
    subst h
    simp [fragsRender, String.append_empty]
  | cons op ops ih =>
    intro s s' hInv hne h
    simp only [applyOps] at h
    rcases hap : s.apply op.1 op.2 with ⟨s1, e⟩
    rw [hap] at h
    cases e with
    | some err => simp at h
    | none =>
      obtain ⟨hstr, hInv1⟩ :=
        apply_ok_stringify s s1 op.1 op.2 hInv (hne op (List.mem_cons_self op ops)) hap
      have hrest := ih s1 s' hInv1 (fun o ho => hne o (List.mem_cons_of_mem op ho)) h
      rw [hrest, hstr, fragsRender, String.append_assoc]

/-- C1 (amended): for every builder whose fragments — all nonempty strings —
were applied through the public operations in non-decreasing kind order
(tag, id, class, attribute, pseudo-class, pseudo-element) without throwing,
`stringify()` returns the concatenation of the fragments in that fixed order
with the exact prefixes: tag verbatim, `#` before the id, `.` before each
class in insertion order, `[`/`]` around each attribute in insertion order,
`:` before each pseudo-class in insertion order, `::` before the
pseudo-element; absent kinds contribute nothing and there are no other
separators. -/
theorem stringify_of_sorted_nonempty (ops : List BuilderOp) (s' : SelectoCss)
    (_hsorted : List.Chain' (fun a b : BuilderOp => a.1.rank ≤ b.1.rank) ops)
    (hne : ∀ op ∈ ops, op.2 ≠ "")
    (hap : applyOps initSel ops = (s', none)) :
    s'.stringify = fragsRender ops := by
  have hInv0 : SelInv initSel := ⟨by simp [initSel, SelectoCss.new], by simp [initSel, SelectoCss.new], by simp [initSel, SelectoCss.new]⟩
  have h0 : initSel.stringify = "" := rfl
  have h := applyOps_ok_stringify ops initSel s' hInv0 hne hap
  rw [h0, String.empty_append] at h
  exact h

/-- C1 counterexample: the claim as stated fails for empty fragment values.
The chain `class("")`, `class("a")` is applied in non-decreasing kind order
and succeeds, the classes sequence ends up `["", "a"]`, yet `stringify()`
returns the empty string — neither `..a` (a `.` before each class) nor `.a` (a `.`
before each nonempty class). -/
theorem stringify_of_sorted_cex :
    List.Chain' (fun a b : BuilderOp => a.1.rank ≤ b.1.rank) [(Kind.cls, ""), (Kind.cls, "a")]
    ∧ (applyOps initSel [(Kind.cls, ""), (Kind.cls, "a")]).2 = none
    ∧ ((applyOps initSel [(Kind.cls, ""), (Kind.cls, "a")]).1).elementClasses = ["", "a"]
    ∧ ((applyOps initSel [(Kind.cls, ""), (Kind.cls, "a")]).1).stringify = ""
    ∧ fragsRender [(Kind.cls, ""), (Kind.cls, "a")] = "..a"
    ∧ ("" : String) ≠ "..a" ∧ ("" : String) ≠ ".a" := by
  refine ⟨?_, by decide, by decide, by decide, by decide, by decide, by decide⟩
  simp [List.chain'_cons, Kind.rank]

/-- Witness for C1: `element("a").attr("href").pseudoClass("focus")` renders
as the concatenation of its fragments, `a[href]:focus`. -/
theorem stringify_of_sorted_nonempty_witness :
    ((applyOps initSel [(Kind.element, "a"), (Kind.attr, "href"), (Kind.pseudoClass, "focus")]).1).stringify
      = fragsRender [(Kind.element, "a"), (Kind.attr, "href"), (Kind.pseudoClass, "focus")] :=
  stringify_of_sorted_nonempty _ _ (by simp [List.chain'_cons, Kind.rank]) (by decide) (by decide)

/-- C2 (amended): for every pair of kinds with `rank K1 > rank K2` and every
pair of values whose first is a nonempty string, appending the K1 fragment to
a fresh builder succeeds, and then attempting to append the K2 fragment
throws the out-of-order error message, leaving the builder exactly at the
state holding the earlier K1 fragment. (For an empty K1 value the second call
succeeds instead — see the counterexample.) -/
theorem append_out_of_order_fails (k1 k2 : Kind) (v1 v2 : String)
    (hrank : k2.rank < k1.rank) (hv1 : v1 ≠ "") :
    initSel.apply k1 v1 = (singleFrag k1 v1, none)
    ∧ (singleFrag k1 v1).apply k2 v2 = (singleFrag k1 v1, some orderMsg) := by
  have tv : truthyStr v1 = true := (truthyStr_true v1).mpr hv1
  cases k1 <;> cases k2 <;>
    simp_all [Kind.rank, SelectoCss.apply, SelectoCss.element, SelectoCss.id, SelectoCss.cls,
      SelectoCss.attr, SelectoCss.pseudoClass, SelectoCss.pseudoElement, singleFrag, initSel,
      SelectoCss.new, truthyStr_empty, truthyHead_nil, truthyHead_cons]

/-- C2 counterexample: with an empty K1 value the claim fails. Appending
`pseudoElement("")` (rank 5) and then `class("x")` (rank 2) does not throw:
the second call succeeds because the stored empty string is falsy in the
ordering check. -/
theorem append_out_of_order_cex :
    Kind.cls.rank < Kind.pseudoElement.rank
    ∧ (initSel.apply Kind.pseudoElement "").2 = none
    ∧ (((initSel.apply Kind.pseudoElement "").1).apply Kind.cls "x").2 = none := by
  refine ⟨by decide, by decide, by decide⟩

/-- Witness for C2: `attr("href")` then `id("main")` throws the ordering
error and the attribute is still stored. -/
theorem append_out_of_order_witness :
    initSel.apply Kind.attr "href" = (singleFrag Kind.attr "href", none)
    ∧ (singleFrag Kind.attr "href").apply Kind.id "main"
      = (singleFrag Kind.attr "href", some orderMsg) :=
  append_out_of_order_fails Kind.attr Kind.id "href" "main" (by decide) (by decide)

/-- C3 (amended): for every singleton kind (tag, id, pseudo-element) and
every pair of values whose first is a nonempty string, after a successful
first call the second call of the same setter throws the duplicate-singleton
error message, and the stored value remains the first one set. (For an empty
first value the second call overwrites instead — see the counterexample.) -/
theorem duplicate_singleton_fails (s s1 : SelectoCss) (k : Kind) (v1 v2 : String)
    (hk : k.isSingleton = true) (hv1 : v1 ≠ "") (h1 : s.apply k v1 = (s1, none)) :
    s1.apply k v2 = (s1, some dupMsg) ∧ s1.singletonField k = v1 := by
  have tv : truthyStr v1 = true := (truthyStr_true v1).mpr hv1
  cases k
  case element =>
    simp only [SelectoCss.apply, SelectoCss.element] at h1
    split at h1
    · simp at h1
    next =>
      split at h1
      · simp at h1
      next =>
        simp only [Prod.mk.injEq] at h1
        obtain ⟨h1, -⟩ := h1
        subst h1
        exact ⟨by simp [SelectoCss.apply, SelectoCss.element, tv], rfl⟩
  case id =>
    simp only [SelectoCss.apply, SelectoCss.id] at h1
    split at h1
    · simp at h1
    next =>
      split at h1
      · simp at h1
      next =>
        simp only [Prod.mk.injEq] at h1
        obtain ⟨h1, -⟩ := h1
        subst h1
        exact ⟨by simp [SelectoCss.apply, SelectoCss.id, tv], rfl⟩
  case pseudoElement =>
    simp only [SelectoCss.apply, SelectoCss.pseudoElement] at h1
    split at h1
    · simp at h1
    next =>
      simp only [Prod.mk.injEq] at h1
      obtain ⟨h1, -⟩ := h1
      subst h1
      exact ⟨by simp [SelectoCss.apply, SelectoCss.pseudoElement, tv], rfl⟩
  all_goals simp [Kind.isSingleton] at hk

/-- C3 counterexample: with an empty first value the claim fails. After
`element("")`, a second `element("div")` does not throw — it succeeds and
overwrites the stored tag with `"div"`. -/
theorem duplicate_singleton_cex :
    Kind.element.isSingleton = true
    ∧ (initSel.apply Kind.element "").2 = none
    ∧ (((initSel.apply Kind.element "").1).apply Kind.element "div").2 = none
    ∧ ((((initSel.apply Kind.element "").1).apply Kind.element "div").1).elementTag = "div" := by
  refine ⟨by decide, by decide, by decide, by decide⟩

/-- Witness for C3: after `id("main")`, a second `id("other")` throws the
duplicate error and the stored id is still `"main"`. -/
theorem duplicate_singleton_witness :
    (singleFrag Kind.id "main").apply Kind.id "other"
      = (singleFrag Kind.id "main", some dupMsg)
    ∧ (singleFrag Kind.id "main").singletonField Kind.id = "main" :=
  duplicate_singleton_fails initSel (singleFrag Kind.id "main") Kind.id "main" "other"
    (by decide) (by decide) (by decide)

/-- C4: every builder operation is atomic with respect to failure. Whenever a
call to `element`, `id`, `class`, `attr`, `pseudoClass` or `pseudoElement`
throws, the builder state after the failed call is exactly the state
immediately before it — the violating fragment is never applied. (In the
source every `throw` precedes every field write; `stringify()` contains no
throw at all, so in the embedding it is a total `String`-valued function and
no error can be deferred to rendering time.) -/
theorem builder_failure_atomic (s : SelectoCss) (k : Kind) (v e : String)
    (h : (s.apply k v).2 = some e) : (s.apply k v).1 = s := by
  cases k <;>
    simp only [SelectoCss.apply, SelectoCss.element, SelectoCss.id, SelectoCss.cls,
      SelectoCss.attr, SelectoCss.pseudoClass, SelectoCss.pseudoElement] at h ⊢ <;>
    split_ifs at h ⊢ <;> simp_all

/-- Witness for C4: the failing `element("b")` after `element("a")` leaves
the builder state untouched. -/
theorem builder_failure_atomic_witness :
    ((singleFrag Kind.element "a").apply Kind.element "b").1 = singleFrag Kind.element "a" :=
  builder_failure_atomic (singleFrag Kind.element "a") Kind.element "b" dupMsg (by decide)

/-- C5: `combine` captures `left.render()` and `right.render()` as strings at
combination time, not live references. The combined object stores only the
two rendered strings, so its later `stringify()` is fully determined by the
operand states at combination time: for any builder state `sa` combined into
`c` and any builder operation successfully mutating `sa` to `sa'` afterwards,
`c.stringify()` still equals the text rendered from `sa`; and a nested
combination renders the inner combined string verbatim inside the outer one. -/
theorem combine_captures_strings (sa sa' : SelectoCss) (k : Kind) (v : String)
    (t : String) (B : Selector)
    (_hmut : sa.apply k v = (sa', none)) :
    (cssSelectorBuilder.combine (Selector.simple sa) t B).firstSel = sa.stringify
    ∧ (cssSelectorBuilder.combine (Selector.simple sa) t B).secondtSel = B.stringify
    ∧ (cssSelectorBuilder.combine (Selector.simple sa) t B).stringify
      = sa.stringify ++ " " ++ t ++ " " ++ B.stringify
    ∧ ∀ (c : Combined) (t2 : String) (C : Selector),
        (cssSelectorBuilder.combine (Selector.combined c) t2 C).stringify
          = c.stringify ++ " " ++ t2 ++ " " ++ C.stringify := by
  exact ⟨rfl, rfl, rfl, fun c t2 C => rfl⟩

/-- Witness for C5: combining `element("div")` and then mutating the left
operand with `id("x")` — the combined object still holds the old rendering. -/
theorem combine_captures_strings_witness :
    (cssSelectorBuilder.combine (Selector.simple (singleFrag Kind.element "div")) "+"
        (Selector.simple (singleFrag Kind.id "x"))).firstSel
      = (singleFrag Kind.element "div").stringify
    ∧ (cssSelectorBuilder.combine (Selector.simple (singleFrag Kind.element "div")) "+"
        (Selector.simple (singleFrag Kind.id "x"))).stringify
      = (singleFrag Kind.element "div").stringify ++ " " ++ "+" ++ " "
        ++ (Selector.simple (singleFrag Kind.id "x")).stringify := by
  have h := combine_captures_strings (singleFrag Kind.element "div")
    ((singleFrag Kind.element "div").apply Kind.id "x").1 Kind.id "x" "+"
    (Selector.simple (singleFrag Kind.id "x")) (by decide)
  exact ⟨h.1, h.2.2.1⟩

/-- C6: for every pair of operands and every combinator token string
whatsoever, `combine` performs no validation of the token and the combined
`stringify()` returns exactly `left.render() + " " + token + " " +
right.render()`, the token interpolated verbatim between single spaces. -/
theorem combine_token_verbatim (A B : Selector) (t : String) :
    (cssSelectorBuilder.combine A t B).stringify
      = A.stringify ++ " " ++ t ++ " " ++ B.stringify := rfl

/-- The `Rectangle` constructor's state: `this.width` and `this.height`.
The JSON inputs of interest carry integer values, modelled as `Int`. -/
structure Rectangle where
  width : Int
  height : Int
deriving DecidableEq, Repr

/-- `getArea`: the arrow function reads `this.width` and `this.height` at
call time, so in the embedding it is a function of the current state. -/
def Rectangle.getArea (r : Rectangle) : Int := r.width * r.height

/-- `new Rectangle(...values)`: positional application of the spread
argument list to the two declared parameters. Only the matching-arity case
is modelled; any other arity is `none`. -/
def Rectangle.construct : List Int → Option Rectangle
  | [w, h] => some { width := w, height := h }
  | _ => none

/-- The characters `JSON` braces are written with (kept out of string
literals as code points 123 and 125). -/
def lbrace : Char := '\x7b'

/-- Closing brace, code point 125. -/
def rbrace : Char := '\x7d'

/-- Digit run of a JSON number (the subset used here: unsigned integers). -/
def parseNatAux : List Char → Nat → Nat × List Char
  | c :: cs, acc =>
    if c.isDigit then parseNatAux cs (acc * 10 + (c.toNat - 48)) else (acc, c :: cs)
  | [], acc => (acc, [])

/-- A JSON number (unsigned integer subset); fails without a leading digit. -/
def parseNum : List Char → Option (Nat × List Char)
  | c :: cs => if c.isDigit then some (parseNatAux (c :: cs) 0) else none
  | [] => none

/-- Characters of a JSON string up to the closing quote (no escapes in the
subset modelled). -/
def parseStrAux : List Char → String → Option (String × List Char)
  | c :: cs, acc => if c = '"' then some (acc, cs) else parseStrAux cs (acc.push c)
  | [], _ => none

/-- A JSON string literal. -/
def parseStringLit : List Char → Option (String × List Char)
  | '"' :: cs => parseStrAux cs ""
  | _ => none

/-- One `"key":value` member. -/
def parseMember (cs : List Char) : Option ((String × Int) × List Char) :=
  match parseStringLit cs with
  | some (k, cs1) =>
    match cs1 with
    | ':' :: cs2 =>
      match parseNum cs2 with
      | some (n, cs3) => some ((k, (n : Int)), cs3)
      | none => none
    | _ => none
  | none => none

/-- Comma-separated members, in textual order (fuelled recursion; the fuel is
the remaining input length, so it never runs out on real input). -/
def parseMembers : Nat → List Char → Option (List (String × Int) × List Char)
  | 0, _ => none
  | fuel + 1, cs =>
    match parseMember cs with
    | some (kv, cs1) =>
      match cs1 with
      | ',' :: cs2 =>
        match parseMembers fuel cs2 with
        | some (kvs, cs3) => some (kv :: kvs, cs3)
        | none => none
      | _ => some ([kv], cs1)
    | none => none

/-- `JSON.parse` for the flat-object subset the `fromJSON` examples use: an
object whose values are unsigned integers, returned as the key/value pairs
in textual order — the iteration order JavaScript gives such an object. -/
def JSON.parse (s : String) : Option (List (String × Int)) :=
  match s.data with
  | [] => none
  | c :: cs =>
    if c = lbrace then
      if cs = [rbrace] then some []
      else
        match parseMembers cs.length cs with
        | some (kvs, [e]) => if e = rbrace then some kvs else none
        | _ => none
    else none

/-- `Object.values(obj)`: the values in the mapping's iteration order. -/
def Object.values (obj : List (String × Int)) : List Int := obj.map Prod.snd

/-- `fromJSON(proto, json)`: parse the JSON text, take the values of the
resulting mapping in iteration order, and invoke the constructor associated
with the prototype positionally on them (`new proto.constructor(...values)`;
the constructor is passed here as the spread-application function). -/
def fromJSON {α : Type} (construct : List Int → Option α) (json : String) : Option α :=
  match JSON.parse json with
  | some obj => construct (Object.values obj)
  | none => none

/-- C7: `fromJSON` parses the JSON text into a mapping, extracts its values
in the mapping's iteration order, and invokes the prototype's constructor
positionally on them. In particular
`fromJSON(Rectangle.prototype, json)` on the JSON text with width 10 and height 20 yields an
object with `width = 10`, `height = 20` and `getArea() = 200`, and
`getArea` is recomputed on each call as `width * height` from the current
field values. -/
theorem fromJSON_rectangle_example :
    JSON.parse "\x7b\"width\":10,\"height\":20\x7d"
      = some [("width", (10 : Int)), ("height", 20)]
    ∧ fromJSON Rectangle.construct "\x7b\"width\":10,\"height\":20\x7d"
      = Rectangle.construct (Object.values [("width", (10 : Int)), ("height", 20)])
    ∧ fromJSON Rectangle.construct "\x7b\"width\":10,\"height\":20\x7d"
      = some { width := 10, height := 20 }
    ∧ ({ width := 10, height := 20 } : Rectangle).width = 10
    ∧ ({ width := 10, height := 20 } : Rectangle).height = 20
    ∧ ({ width := 10, height := 20 } : Rectangle).getArea = 200
    ∧ ∀ r : Rectangle, r.getArea = r.width * r.height := by
  refine ⟨by decide, by decide, by decide, by decide, by decide, by decide, fun r => rfl⟩

/-- C8: a singleton fragment set to the empty string is treated as absent by
every duplicate and ordering check, because all checks test truthiness of the
stored field: after setting a singleton kind to the empty string on a fresh builder, the
same setter succeeds again and overwrites the value, any earlier-ranked
operation also succeeds, and `stringify()` omits the empty fragment and its
prefix entirely. -/
theorem empty_singleton_treated_absent (k : Kind) (hk : k.isSingleton = true) (v2 : String) :
    (initSel.apply k "").2 = none
    ∧ ((initSel.apply k "").1).apply k v2 = (singleFrag k v2, none)
    ∧ (singleFrag k v2).singletonField k = v2
    ∧ (∀ k2 v', k2.rank < k.rank → (((initSel.apply k "").1).apply k2 v').2 = none)
    ∧ ((initSel.apply k "").1).stringify = "" := by
  cases k
  case element =>
    refine ⟨by decide, ?_, rfl, ?_, by decide⟩
    · simp [SelectoCss.apply, SelectoCss.element, initSel, SelectoCss.new, singleFrag,
        truthyStr_empty, truthyHead_nil]
    · intro k2 v' hr
      cases k2 <;>
        simp_all [Kind.rank, SelectoCss.apply, SelectoCss.element, SelectoCss.id,
          SelectoCss.cls, SelectoCss.attr, SelectoCss.pseudoClass, SelectoCss.pseudoElement,
          initSel, SelectoCss.new, truthyStr_empty, truthyHead_nil]
  case id =>
    refine ⟨by decide, ?_, rfl, ?_, by decide⟩
    · simp [SelectoCss.apply, SelectoCss.id, initSel, SelectoCss.new, singleFrag,
        truthyStr_empty, truthyHead_nil]
    · intro k2 v' hr
      cases k2 <;>
        simp_all [Kind.rank, SelectoCss.apply, SelectoCss.element, SelectoCss.id,
          SelectoCss.cls, SelectoCss.attr, SelectoCss.pseudoClass, SelectoCss.pseudoElement,
          initSel, SelectoCss.new, truthyStr_empty, truthyHead_nil]
  case pseudoElement =>
    refine ⟨by decide, ?_, rfl, ?_, by decide⟩
    · simp [SelectoCss.apply, SelectoCss.pseudoElement, initSel, SelectoCss.new, singleFrag,
        truthyStr_empty, truthyHead_nil]
    · intro k2 v' hr
      cases k2 <;>
        simp_all [Kind.rank, SelectoCss.apply, SelectoCss.element, SelectoCss.id,
          SelectoCss.cls, SelectoCss.attr, SelectoCss.pseudoClass, SelectoCss.pseudoElement,
          initSel, SelectoCss.new, truthyStr_empty, truthyHead_nil]
  all_goals simp [Kind.isSingleton] at hk

/-- Witness for C8: after `pseudoElement("")`, a second `pseudoElement`
overwrites and an earlier-ranked `element` also succeeds. -/
theorem empty_singleton_treated_absent_witness :
    ((initSel.apply Kind.pseudoElement "").1).apply Kind.pseudoElement "after"
      = (singleFrag Kind.pseudoElement "after", none)
    ∧ (((initSel.apply Kind.pseudoElement "").1).apply Kind.element "div").2 = none :=
  ⟨(empty_singleton_treated_absent Kind.pseudoElement (by decide) "after").2.1,
   (empty_singleton_treated_absent Kind.pseudoElement (by decide) "div").2.2.2.1
     Kind.element "div" (by decide)⟩

theorem applyOps_repeat (k : Kind) (hk : k.isRepeatable = true) :
    ∀ (vs l : List String),
      applyOps (onlyList k l) (vs.map (fun v => (k, v))) = (onlyList k (l ++ vs), none) := by
  cases k
  case cls =>
    intro vs
    induction vs with
    | nil => intro l; simp [applyOps]
    | cons v vs ih =>
      intro l
      have h1 : (onlyList Kind.cls l).apply Kind.cls v = (onlyList Kind.cls (l ++ [v]), none) := by
        simp [SelectoCss.apply, SelectoCss.cls, onlyList, initSel, SelectoCss.new,
          truthyHead_nil, truthyStr_empty]
      simp only [List.map_cons, applyOps, h1]
      rw [ih (l ++ [v]), List.append_assoc]
      simp
  case attr =>
    intro vs
    induction vs with
    | nil => intro l; simp [applyOps]
    | cons v vs ih =>
      intro l
      have h1 : (onlyList Kind.attr l).apply Kind.attr v
          = (onlyList Kind.attr (l ++ [v]), none) := by
        simp [SelectoCss.apply, SelectoCss.attr, onlyList, initSel, SelectoCss.new,
          truthyHead_nil, truthyStr_empty]
      simp only [List.map_cons, applyOps, h1]
      rw [ih (l ++ [v]), List.append_assoc]
      simp
  case pseudoClass =>
    intro vs
    induction vs with
    | nil => intro l; simp [applyOps]
    | cons v vs ih =>
      intro l
      have h1 : (onlyList Kind.pseudoClass l).apply Kind.pseudoClass v
          = (onlyList Kind.pseudoClass (l ++ [v]), none) := by
        simp [SelectoCss.apply, SelectoCss.pseudoClass, onlyList, initSel, SelectoCss.new,
          truthyHead_nil, truthyStr_empty]
      simp only [List.map_cons, applyOps, h1]
      rw [ih (l ++ [v]), List.append_assoc]
      simp
  all_goals simp [Kind.isRepeatable] at hk

/-- C9: for every repeatable kind (class, attribute, pseudo-class), if the
first value appended to that kind's sequence is the empty string, then every
later same-kind append still succeeds and lands in the sequence, yet
`stringify()` omits the entire sequence — including every later nonempty
entry — because the rendering guard only tests truthiness of the element at
index 0. -/
theorem empty_head_hides_sequence (k : Kind) (hk : k.isRepeatable = true) (vs : List String) :
    applyOps initSel ((k, "") :: vs.map (fun v => (k, v))) = (onlyList k ("" :: vs), none)
    ∧ (onlyList k ("" :: vs)).listField k = "" :: vs
    ∧ (onlyList k ("" :: vs)).stringify = "" := by
  have hrun := applyOps_repeat k hk vs [""]
  have h1 : initSel.apply k "" = (onlyList k [""], none) := by
    cases k <;>
      simp_all [Kind.isRepeatable, SelectoCss.apply, SelectoCss.cls, SelectoCss.attr,
        SelectoCss.pseudoClass, onlyList, initSel, SelectoCss.new, truthyHead_nil,
        truthyStr_empty]
  refine ⟨?_, ?_, ?_⟩
  · simp only [applyOps, h1]
    simpa using hrun
  · cases k <;> simp_all [Kind.isRepeatable, onlyList, SelectoCss.listField]
  · cases k <;>
      simp_all [Kind.isRepeatable, onlyList, SelectoCss.stringify, initSel, SelectoCss.new,
        truthyStr_empty, truthyHead_nil, truthyHead_cons]

/-- Witness for C9: `class("")` followed by `class("a")` and `class("b")`
succeeds, stores `["", "a", "b"]`, and stringifies to the empty string. -/
theorem empty_head_hides_sequence_witness :
    applyOps initSel [(Kind.cls, ""), (Kind.cls, "a"), (Kind.cls, "b")]
      = (onlyList Kind.cls ["", "a", "b"], none)
    ∧ (onlyList Kind.cls ["", "a", "b"]).stringify = "" :=
  ⟨(empty_head_hides_sequence Kind.cls (by decide) ["a", "b"]).1,
   (empty_head_hides_sequence Kind.cls (by decide) ["a", "b"]).2.2⟩

/-- C10: every error raised by a builder operation carries one of exactly two
fixed message strings (and the two are distinct): the duplicate-singleton
message, raised only by `element`, `id` and `pseudoElement`, and the
out-of-order message, raised only by `element`, `id`, `class`, `attr` and
`pseudoClass` (never by `pseudoElement`); every call either succeeds or
raises one of these two. `stringify()` is a total string-valued function in
the embedding — the source contains no `throw` in it — so it raises nothing. -/
theorem builder_error_messages (s : SelectoCss) (k : Kind) (v : String) :
    dupMsg ≠ orderMsg
    ∧ ((s.apply k v).2 = none
        ∨ ((s.apply k v).2 = some dupMsg ∧ k.isSingleton = true)
        ∨ ((s.apply k v).2 = some orderMsg ∧ k ≠ Kind.pseudoElement)) := by
  refine ⟨by decide, ?_⟩
  cases k <;>
    simp only [SelectoCss.apply, SelectoCss.element, SelectoCss.id, SelectoCss.cls,
      SelectoCss.attr, SelectoCss.pseudoClass, SelectoCss.pseudoElement] <;>
    split_ifs <;> simp [Kind.isSingleton]
